import Mathlib

/-!
# Verification of the `async-progressbar` terminal renderer

A shallow embedding of `src/async_progressbar.py`.  Python floats
(timestamps, rates, intervals) are modelled as exact rationals `ℚ`;
Python ints as `ℤ`; Python strings as Lean `String`.  The process-wide
class state of `TerminalProgressBar` (`terminal_bar_count`,
`lines_reserved`) is an explicit `Registry` value threaded through the
operations, and each `sys.stdout.write`/`print` is modelled as a string
appended to the operation's output.  `time.time()` is an explicit `now`
argument.
-/

namespace AsyncProgressbar

/-! ## Decimal rendering (Python `str`/format specs) -/

/-- The decimal digit character for `d % 10`-style values (Python digit rendering). -/
def digitChar : ℕ → Char
  | 0 => '0' | 1 => '1' | 2 => '2' | 3 => '3' | 4 => '4'
  | 5 => '5' | 6 => '6' | 7 => '7' | 8 => '8' | _ + 9 => '9'

/-- Digit list of `n`, most significant first; `fuel` bounds the recursion. -/
def natReprAux : ℕ → ℕ → List Char
  | 0, _ => []
  | fuel + 1, n => if n = 0 then [] else natReprAux fuel (n / 10) ++ [digitChar (n % 10)]

/-- Decimal rendering of a natural number, as Python `str` produces it. -/
def natRepr (n : ℕ) : String := if n = 0 then "0" else String.mk (natReprAux n n)

/-- Decimal rendering of an integer, as Python `str` produces it. -/
def intRepr (n : ℤ) : String := if n < 0 then "-" ++ natRepr n.natAbs else natRepr n.natAbs

/-- Python `f"{n:02d}"`: zero-pad to a minimum total width of two characters
(the sign counts towards the width). -/
def pad2 (n : ℤ) : String :=
  let s := intRepr n
  if s.length < 2 then "0" ++ s else s

/-- Python `f"{x:.2f}"` on the rational model of a float: round to two
decimal places and print with exactly two fractional digits. -/
def fmt2 (q : ℚ) : String :=
  let n : ℤ := round (q * 100)
  let sign := if n < 0 then "-" else ""
  let a := n.natAbs
  sign ++ natRepr (a / 100) ++ "." ++ (if a % 100 < 10 then "0" ++ natRepr (a % 100) else natRepr (a % 100))

/-- `BaseProgressBar.format_time`: `minutes = int(seconds // 60)`,
`secs = int(seconds % 60)`, rendered `f"{minutes:02d}:{secs:02d}"`.
Python `//`/`%` on floats are floored, and `seconds % 60 ∈ [0, 60)`,
so `int` truncation agrees with the floor. -/
def format_time (seconds : ℚ) : String :=
  let minutes : ℤ := ⌊seconds / 60⌋
  let secs : ℤ := ⌊seconds⌋ - 60 * ⌊seconds / 60⌋
  pad2 minutes ++ ":" ++ pad2 secs

/-! ## Cursor-addressing escape sequences (module-level constants) -/

def SAVE_CURSOR_POSITION : String := "\x1b7"

def RESTORE_CURSOR_POSITION : String := "\x1b8"

def MOVE_CURSOR_TO_LINE_START : String := "\r"

def CLEAR_LINE_FROM_CURSOR_TO_END : String := "\x1b[K"

/-- `move_cursor_up_lines(n) = f"\033[{n}A"`. -/
def move_cursor_up_lines (n : ℤ) : String := "\x1b[" ++ intRepr n ++ "A"

/-- `move_cursor_down_lines(n) = f"\033[{n}B"`. -/
def move_cursor_down_lines (n : ℤ) : String := "\x1b[" ++ intRepr n ++ "B"

/-! ## Data model -/

/-- The class-level state of `TerminalProgressBar`:
`terminal_bar_count` and `lines_reserved`. -/
structure Registry where
  terminal_bar_count : ℕ
  lines_reserved : Bool
  deriving DecidableEq

/-- Instance state of a `TerminalProgressBar` (including the
`BaseProgressBar` fields set in `__init__`). `pfx`/`sfx` stand for the
Python `prefix`/`suffix` attributes. -/
structure Bar where
  total : ℤ
  leave : Bool
  pfx : String
  sfx : String
  progress : ℤ
  last_update_time : ℚ
  minimum_interval : ℚ
  last_update_progress : ℤ
  rate : ℚ
  start_time : Option ℚ
  fill : String
  bar_length : ℕ
  bar_line : ℕ
  deriving DecidableEq

/-- `TerminalProgressBar.__init__`: the `BaseProgressBar` fields are
zero-initialised, `bar_length = max(10, termCols - reserved)` with
`reserved = len(prefix) + len(suffix) + len(str(total)) + 40`, the bar's
line is the current class-level count, and the count is incremented.
`termCols` stands for `shutil.get_terminal_size().columns`. -/
def mkTerminalProgressBar (reg : Registry) (total : ℤ) (leave : Bool)
    (pfx sfx : String) (minimum_interval : ℚ) (fill : String) (termCols : ℕ) :
    Bar × Registry :=
  let reserved := pfx.length + sfx.length + (intRepr total).length + 40
  ({ total := total
     leave := leave
     pfx := pfx
     sfx := sfx
     progress := 0
     last_update_time := 0
     minimum_interval := minimum_interval
     last_update_progress := 0
     rate := 0
     start_time := none
     fill := fill
     bar_length := max 10 (termCols - reserved)
     bar_line := reg.terminal_bar_count },
   { reg with terminal_bar_count := reg.terminal_bar_count + 1 })

/-- `TerminalProgressBar.reserve_lines`: if the lines are not yet
reserved, print `bars_to_reserve` newline characters (when positive) and
set the flag.  Returns the new class state and the printed output. -/
def reserve_lines (reg : Registry) (num_bars : Option ℕ) : Registry × String :=
  if reg.lines_reserved then (reg, "")
  else
    let bars_to_reserve := num_bars.getD reg.terminal_bar_count
    if 0 < bars_to_reserve then
      ({ reg with lines_reserved := true }, String.mk (List.replicate bars_to_reserve '\n'))
    else (reg, "")

/-- `BaseProgressBar.update_rate`: instantaneous rate between the last
render and `now`, `0` when the elapsed interval is not positive;
also records the progress snapshot. -/
def update_rate (b : Bar) (now : ℚ) : Bar :=
  let elapsed := now - b.last_update_time
  let progress_delta := b.progress - b.last_update_progress
  { b with
    rate := if 0 < elapsed then (progress_delta : ℚ) / elapsed else 0
    last_update_progress := b.progress }

/-- `BaseProgressBar.elapsed`: seconds since the first update, `0` before it. -/
def elapsed (b : Bar) (now : ℚ) : ℚ :=
  match b.start_time with
  | none => 0
  | some t => now - t

/-- `BaseProgressBar.remaining`: ETA in seconds. -/
def remaining (b : Bar) : ℚ :=
  if b.progress = 0 ∨ b.rate = 0 then 0
  else if 0 < b.rate then ((b.total - b.progress : ℤ) : ℚ) / b.rate else 0

/-- Python string repetition `s * n` (empty for non-positive `n`). -/
def strRepeat (s : String) : ℕ → String
  | 0 => ""
  | k + 1 => s ++ strRepeat s k

/-- The `filled_length` local of `TerminalProgressBar.draw`,
`int(self.bar_length * self.progress // self.total)`, with its failure
made explicit: Python's `//` raises `ZeroDivisionError` when
`total = 0`, and `none` models that raise — `draw` then terminates
before writing anything. -/
def filledLengthOpt (b : Bar) : Option ℤ :=
  if b.total = 0 then none
  else some (Int.fdiv ((b.bar_length : ℤ) * b.progress) b.total)

/-- The `bar` local of `TerminalProgressBar.draw`:
`fill * filled_length + "-" * (bar_length - filled_length)` with
`filled_length = int(bar_length * progress // total)` (floor division).
Here `Int.fdiv` is total and yields `0` at `total = 0`, where Python
raises `ZeroDivisionError` instead; that error path is modelled by
`filledLengthOpt` and this total rendering is meaningful only for
`total ≠ 0`. -/
def barStr (b : Bar) : String :=
  let filled_length : ℤ := Int.fdiv ((b.bar_length : ℤ) * b.progress) b.total
  strRepeat b.fill filled_length.toNat ++ strRepeat "-" ((b.bar_length : ℤ) - filled_length).toNat

/-- The `rate_str` local of `draw`: `f" ({rate:.2f} it/s)"` (note the
leading space inside the string). -/
def rateStr (b : Bar) : String := " (" ++ fmt2 b.rate ++ " it/s)"

/-- The `remaining_str` local of `draw`:
`format_time(remaining) if progress > 0 else "00:00"`. -/
def remainingStr (b : Bar) : String :=
  if 0 < b.progress then format_time (remaining b) else "00:00"

/-- The body of the third `sys.stdout.write` of `draw`, without the
leading `\r` and the trailing clear-line sequence:
`f"{prefix} |{bar}| {progress}/{total} {elapsed_str}<{remaining_str} {rate_str} {suffix}"`. -/
def drawContent (b : Bar) (now : ℚ) : String :=
  b.pfx ++ " |" ++ barStr b ++ "| " ++ intRepr b.progress ++ "/" ++ intRepr b.total
    ++ " " ++ format_time (elapsed b now) ++ "<" ++ remainingStr b
    ++ " " ++ rateStr b ++ " " ++ b.sfx

/-- The byte stream `TerminalProgressBar.draw` writes to stdout: the
four `sys.stdout.write` calls concatenated in order. `count` is the
class-level `terminal_bar_count` at the time of the draw. -/
def drawOutput (count : ℕ) (b : Bar) (now : ℚ) : String :=
  SAVE_CURSOR_POSITION
    ++ move_cursor_up_lines ((count : ℤ) - b.bar_line)
    ++ (MOVE_CURSOR_TO_LINE_START ++ drawContent b now ++ CLEAR_LINE_FROM_CURSOR_TO_END)
    ++ RESTORE_CURSOR_POSITION

/-- The byte stream `TerminalProgressBar.finish` writes to stdout. -/
def finishOutput (count : ℕ) (b : Bar) : String :=
  move_cursor_down_lines ((count : ℤ) - b.bar_line)

/-- Result of one `BaseProgressBar.update` call: the new bar and class
state, the three output phases in write order (lazy reservation,
redraw, completion move-down), and whether a redraw / completion
happened. -/
structure UpdateResult where
  bar : Bar
  reg : Registry
  reserveOut : String
  drawOut : String
  finishOut : String
  drew : Bool
  finished : Bool
  deriving DecidableEq

/-- The full byte stream of one `update` call, in write order. -/
def UpdateResult.out (r : UpdateResult) : String :=
  r.reserveOut ++ r.drawOut ++ r.finishOut

/-- `BaseProgressBar.update(progress)` at wall-clock time `now`,
specialised to the terminal backend (`draw`/`finish` of
`TerminalProgressBar`): lazily reserve lines, increment progress,
record the start time on the first call, redraw when the minimum
interval has passed or the bar is complete, and emit the completion
move-down when `progress >= total`. -/
def update (reg : Registry) (b : Bar) (progressDelta : ℤ) (now : ℚ) : UpdateResult :=
  let rr := if reg.lines_reserved then (reg, "") else reserve_lines reg none
  let reg1 := rr.1
  let b1 := { b with progress := b.progress + progressDelta }
  let b2 := if b1.start_time = none then { b1 with start_time := some now } else b1
  if b2.minimum_interval ≤ now - b2.last_update_time ∨ b2.total ≤ b2.progress then
    let b3 := update_rate b2 now
    let dOut := drawOutput reg1.terminal_bar_count b3 now
    let b4 := { b3 with last_update_time := now }
    if b4.total ≤ b4.progress then
      { bar := b4, reg := reg1, reserveOut := rr.2, drawOut := dOut,
        finishOut := finishOutput reg1.terminal_bar_count b4, drew := true, finished := true }
    else
      { bar := b4, reg := reg1, reserveOut := rr.2, drawOut := dOut,
        finishOut := "", drew := true, finished := false }
  else
    if b2.total ≤ b2.progress then
      { bar := b2, reg := reg1, reserveOut := rr.2, drawOut := "",
        finishOut := finishOutput reg1.terminal_bar_count b2, drew := false, finished := true }
    else
      { bar := b2, reg := reg1, reserveOut := rr.2, drawOut := "",
        finishOut := "", drew := false, finished := false }

/-- Result of `TerminalProgressBar.reset`: the new bar state and the
byte stream written (one unconditional redraw). -/
structure ResetResult where
  bar : Bar
  out : String
  deriving DecidableEq

/-- `TerminalProgressBar.reset`: zero the counters and redraw
unconditionally. `count` is the class-level `terminal_bar_count` and
`now` the wall-clock time of the redraw. -/
def reset (count : ℕ) (b : Bar) (now : ℚ) : ResetResult :=
  let b1 := { b with progress := 0, last_update_time := 0, last_update_progress := 0, rate := 0 }
  { bar := b1, out := drawOutput count b1 now }

/-! ## Absence of stray control bytes in rendered content -/

/-- A string free of the ESC byte, hence containing no cursor-control
sequence of the terminal protocol used here. -/
def escFree (s : String) : Prop := ∀ c ∈ s.data, c ≠ '\x1b'

instance (s : String) : Decidable (escFree s) := List.decidableBAll _ s.data

theorem escFree_append {a b : String} (ha : escFree a) (hb : escFree b) : escFree (a ++ b) := by
  intro c hc
  rcases List.mem_append.mp hc with h | h
  · exact ha c h
  · exact hb c h

theorem digitChar_ne_esc (d : ℕ) : digitChar d ≠ '\x1b' := by
  rcases d with _ | _ | _ | _ | _ | _ | _ | _ | _ | d
  all_goals first | decide | exact (show ('9' : Char) ≠ '\x1b' by decide)

theorem escFree_natReprAux (fuel : ℕ) : ∀ n c, c ∈ natReprAux fuel n → c ≠ '\x1b' := by
  induction fuel with
  | zero => intro n c hc; simp [natReprAux] at hc
  | succ fuel ih =>
    intro n c hc
    simp only [natReprAux] at hc
    split at hc
    · simp at hc
    · rcases List.mem_append.mp hc with h | h
      · exact ih _ c h
      · rw [List.mem_singleton] at h
        subst h
        exact digitChar_ne_esc _

theorem escFree_natRepr (n : ℕ) : escFree (natRepr n) := by
  unfold natRepr
  split
  · decide
  · intro c hc
    exact escFree_natReprAux n n c hc

theorem escFree_intRepr (n : ℤ) : escFree (intRepr n) := by
  unfold intRepr
  split
  · exact escFree_append (by decide) (escFree_natRepr _)
  · exact escFree_natRepr _

theorem escFree_pad2 (n : ℤ) : escFree (pad2 n) := by
  simp only [pad2]
  split
  · exact escFree_append (by decide) (escFree_intRepr _)
  · exact escFree_intRepr _

theorem escFree_format_time (q : ℚ) : escFree (format_time q) :=
  escFree_append (escFree_append (escFree_pad2 _) (by decide)) (escFree_pad2 _)

theorem escFree_fmt2 (q : ℚ) : escFree (fmt2 q) := by
  simp only [fmt2]
  refine escFree_append (escFree_append (escFree_append ?_ (escFree_natRepr _)) (by decide)) ?_
  · split <;> decide
  · split
    · exact escFree_append (by decide) (escFree_natRepr _)
    · exact escFree_natRepr _

theorem escFree_strRepeat {s : String} (hs : escFree s) (n : ℕ) : escFree (strRepeat s n) := by
  induction n with
  | zero => intro c hc; simp [strRepeat] at hc
  | succ k ih => exact escFree_append hs ih

theorem escFree_barStr {b : Bar} (hf : escFree b.fill) : escFree (barStr b) :=
  escFree_append (escFree_strRepeat hf _) (escFree_strRepeat (by decide) _)

theorem escFree_remainingStr (b : Bar) : escFree (remainingStr b) := by
  unfold remainingStr
  split
  · exact escFree_format_time _
  · decide

theorem escFree_rateStr (b : Bar) : escFree (rateStr b) :=
  escFree_append (escFree_append (by decide) (escFree_fmt2 _)) (by decide)

theorem escFree_drawContent {b : Bar} (now : ℚ)
    (hp : escFree b.pfx) (hs : escFree b.sfx) (hf : escFree b.fill) :
    escFree (drawContent b now) :=
  escFree_append (escFree_append (escFree_append (escFree_append (escFree_append
    (escFree_append (escFree_append (escFree_append (escFree_append (escFree_append
    (escFree_append (escFree_append (escFree_append (escFree_append hp (by decide))
    (escFree_barStr hf)) (by decide)) (escFree_intRepr _)) (by decide))
    (escFree_intRepr _)) (by decide)) (escFree_format_time _)) (by decide))
    (escFree_remainingStr _)) (by decide)) (escFree_rateStr _)) (by decide)) hs

/-! ## Helper lemmas about `update` -/

theorem update_bar_progress (reg : Registry) (b : Bar) (d : ℤ) (now : ℚ) :
    (update reg b d now).bar.progress = b.progress + d := by
  unfold update
  dsimp only
  split <;> split <;> split <;> rfl

theorem update_bar_total (reg : Registry) (b : Bar) (d : ℤ) (now : ℚ) :
    (update reg b d now).bar.total = b.total := by
  unfold update
  dsimp only
  split <;> split <;> split <;> rfl

theorem update_bar_minimum_interval (reg : Registry) (b : Bar) (d : ℤ) (now : ℚ) :
    (update reg b d now).bar.minimum_interval = b.minimum_interval := by
  unfold update
  dsimp only
  split <;> split <;> split <;> rfl

theorem update_bar_bar_line (reg : Registry) (b : Bar) (d : ℤ) (now : ℚ) :
    (update reg b d now).bar.bar_line = b.bar_line := by
  unfold update
  dsimp only
  split <;> split <;> split <;> rfl

theorem reserve_lines_count (reg : Registry) (n : Option ℕ) :
    (reserve_lines reg n).1.terminal_bar_count = reg.terminal_bar_count := by
  unfold reserve_lines
  dsimp only
  split
  · rfl
  · split <;> rfl

theorem update_reg_count (reg : Registry) (b : Bar) (d : ℤ) (now : ℚ) :
    (update reg b d now).reg.terminal_bar_count = reg.terminal_bar_count := by
  unfold update
  dsimp only
  split <;> split <;> split <;> split <;> first | rfl | exact reserve_lines_count reg none

theorem update_drew_iff (reg : Registry) (b : Bar) (d : ℤ) (now : ℚ) :
    (update reg b d now).drew = true ↔
      (b.minimum_interval ≤ now - b.last_update_time ∨ b.total ≤ b.progress + d) := by
  unfold update
  dsimp only
  split <;> split <;> split <;> simp_all [update_rate]

theorem update_finished_iff (reg : Registry) (b : Bar) (d : ℤ) (now : ℚ) :
    (update reg b d now).finished = true ↔ b.total ≤ b.progress + d := by
  unfold update
  dsimp only
  split <;> split <;> split <;> simp_all [update_rate]

theorem update_drew_last_time (reg : Registry) (b : Bar) (d : ℤ) (now : ℚ)
    (h : (update reg b d now).drew = true) :
    (update reg b d now).bar.last_update_time = now := by
  unfold update at h ⊢
  dsimp only at h ⊢
  split <;> split <;> split <;> first
    | rfl
    | (exfalso; split at h <;> simp_all)

/-- Folding a literal head through a right-associated append chain. -/
theorem append_fold (a b c s : String) (h : a ++ b = c) : a ++ (b ++ s) = c ++ s := by
  rw [← String.append_assoc, h]

/-! ## Concrete runs -/

/-- §8.7 scenario: first bar (`total=100`, `minimum_interval=0`), registered
in an empty registry; terminal width 50 columns. -/
def scMk0 : Bar × Registry := mkTerminalProgressBar ⟨0, false⟩ 100 true "" "" 0 "#" 50

/-- §8.7 scenario: second bar, registered after the first. -/
def scMk1 : Bar × Registry := mkTerminalProgressBar scMk0.2 100 true "" "" 0 "#" 50

/-- §8.7 scenario: `bar0.update(10)` at time 1. -/
def scU1 : UpdateResult := update scMk1.2 scMk0.1 10 1

/-- §8.7 scenario: `bar1.update(20)` at time 2. -/
def scU2 : UpdateResult := update scU1.reg scMk1.1 20 2

/-- §8.7 scenario: `bar1.update(80)` at time 3 (completes bar1). -/
def scU3 : UpdateResult := update scU2.reg scU2.bar 80 3

/-- §8.7 scenario: `bar0.update(90)` at time 4 (completes bar0). -/
def scU4 : UpdateResult := update scU3.reg scU1.bar 90 4

/-- A concrete freshly-constructed bar (first of two registered bars),
used by witnesses. -/
def wBar : Bar := (mkTerminalProgressBar ⟨0, false⟩ 100 true "" "" (1/10) "#" 50).1

/-! ## Claims -/

/-- C1: every redraw of a `TerminalProgressBar` with line offset `i`, when
the class-level bar count is `k`, writes exactly: save-cursor `ESC 7`,
move-up `ESC [ {k-i} A`, carriage return, the rendered content,
clear-to-end-of-line `ESC [ K`, restore-cursor `ESC 8`, in this order;
the rendered content holds no other cursor-control (ESC) byte as long as
the user-supplied prefix, suffix and fill glyph hold none; and the redraw
performed inside `update` is exactly such a block, for the same line
offset and the current count. -/
theorem draw_cursor_sequence (count : ℕ) (b : Bar) (now : ℚ) :
    (drawOutput count b now =
      "\x1b7" ++ "\x1b[" ++ intRepr ((count : ℤ) - b.bar_line) ++ "A" ++ "\r"
        ++ drawContent b now ++ "\x1b[K" ++ "\x1b8")
    ∧ (escFree b.pfx → escFree b.sfx → escFree b.fill → escFree (drawContent b now))
    ∧ (∀ (reg : Registry) (d : ℤ), (update reg b d now).drew = true →
        ∃ b' : Bar, b'.bar_line = b.bar_line
          ∧ (update reg b d now).drawOut = drawOutput reg.terminal_bar_count b' now) := by
  refine ⟨?_, fun hp hs hf => escFree_drawContent now hp hs hf, fun reg d h => ?_⟩
  · simp only [drawOutput, move_cursor_up_lines, SAVE_CURSOR_POSITION,
      MOVE_CURSOR_TO_LINE_START, CLEAR_LINE_FROM_CURSOR_TO_END, RESTORE_CURSOR_POSITION,
      String.append_assoc]
  · have hc : (if reg.lines_reserved = true then (reg, "")
        else reserve_lines reg none).1.terminal_bar_count = reg.terminal_bar_count := by
      split
      · rfl
      · exact reserve_lines_count reg none
    unfold update at h ⊢
    dsimp only at h ⊢
    rw [hc]
    split <;> split <;> split <;> first
      | (refine ⟨_, ?_, rfl⟩; rfl)
      | (exfalso; split at h <;> simp_all)

/-- C1 witness: the concrete bar `wBar` (empty prefix and suffix, `#`
fill) renders content free of ESC bytes, and its first (redrawing)
update writes a draw block for the same line offset and current
count 2. -/
theorem draw_cursor_sequence_witness :
    escFree (drawContent wBar 1)
    ∧ ∃ b' : Bar, b'.bar_line = wBar.bar_line
        ∧ (update ⟨2, false⟩ wBar 10 1).drawOut = drawOutput 2 b' 1 :=
  ⟨(draw_cursor_sequence 2 wBar 1).2.1 (by with_unfolding_all decide)
      (by with_unfolding_all decide) (by with_unfolding_all decide),
   (draw_cursor_sequence 2 wBar 1).2.2 ⟨2, false⟩ 10 (by with_unfolding_all decide)⟩

/-- C3: `finish()` writes exactly a move-down of `count - bar_line` lines;
in the §8.7 scenario the two bars get offsets 0 and 1, bar1's completing
update emits move-down `ESC [ 1 B` and bar0's emits `ESC [ 2 B`. -/
theorem finish_move_down :
    (∀ (count : ℕ) (b : Bar),
        finishOutput count b = "\x1b[" ++ intRepr ((count : ℤ) - b.bar_line) ++ "B")
    ∧ scMk0.1.bar_line = 0 ∧ scMk1.1.bar_line = 1
    ∧ scU3.finished = true ∧ scU3.finishOut = "\x1b[1B"
    ∧ scU4.finished = true ∧ scU4.finishOut = "\x1b[2B" := by
  refine ⟨fun count b => rfl, ?_, ?_, ?_, ?_, ?_, ?_⟩
  all_goals with_unfolding_all decide

/-- A bar with `minimum_interval = 7`, constructed in a registry whose
lines are already reserved; used to exercise the redraw throttle. -/
def cxBar : Bar := (mkTerminalProgressBar ⟨0, true⟩ 100 true "" "" 7 "#" 50).1

/-- First update of `cxBar` at time 10: the gate passes (10 - 0 ≥ 7). -/
def cxS1 : UpdateResult := update ⟨1, true⟩ cxBar 1 10

/-- Second update at time 13: throttled (13 - 10 < 7). -/
def cxS2 : UpdateResult := update cxS1.reg cxS1.bar 1 13

/-- Third update at time 18: the gate passes again (18 - 10 ≥ 7). -/
def cxS3 : UpdateResult := update cxS2.reg cxS2.bar 1 18

/-- C2 counterexample: the updates at times 13 and 18 are two update
calls 5 seconds apart — less than the 7-second minimum redraw interval —
neither of which reaches `total`; yet the first of them performs no
redraw while the second one does.  This refutes "of two update calls
less than minimumRedrawInterval apart that do not reach total, only the
first redraws". -/
theorem update_throttle_counterexample :
    cxS2.drew = false ∧ cxS3.drew = true
    ∧ (18 : ℚ) - 13 < cxBar.minimum_interval
    ∧ cxS2.bar.progress < cxS2.bar.total
    ∧ cxS3.bar.progress < cxS3.bar.total := by
  with_unfolding_all decide

/-- C2 (amended): a redraw happens iff
`(now - lastRenderTime) >= minimumRedrawInterval` or the incremented
progress reaches `total`; the update that reaches or exceeds `total`
always redraws; and of two update calls less than
`minimumRedrawInterval` apart that do not reach `total`, **where the
first call redraws**, the second performs no redraw while still
incrementing progress. -/
theorem update_redraw_gate :
    (∀ (reg : Registry) (b : Bar) (d : ℤ) (now : ℚ),
        (update reg b d now).drew = true ↔
          (b.minimum_interval ≤ now - b.last_update_time ∨ b.total ≤ b.progress + d))
    ∧ (∀ (reg : Registry) (b : Bar) (d : ℤ) (now : ℚ),
        b.total ≤ b.progress + d → (update reg b d now).drew = true)
    ∧ (∀ (reg : Registry) (b : Bar) (d1 d2 : ℤ) (t1 t2 : ℚ),
        (update reg b d1 t1).drew = true →
        t2 - t1 < b.minimum_interval →
        b.progress + d1 + d2 < b.total →
        (update (update reg b d1 t1).reg (update reg b d1 t1).bar d2 t2).drew = false
        ∧ (update (update reg b d1 t1).reg (update reg b d1 t1).bar d2 t2).bar.progress
            = b.progress + d1 + d2) := by
  refine ⟨update_drew_iff,
    fun reg b d now h => (update_drew_iff reg b d now).mpr (Or.inr h),
    fun reg b d1 d2 t1 t2 h1 h2 h3 => ⟨?_, ?_⟩⟩
  · have hiff := update_drew_iff (update reg b d1 t1).reg (update reg b d1 t1).bar d2 t2
    rw [update_bar_minimum_interval, update_bar_total, update_bar_progress,
      update_drew_last_time reg b d1 t1 h1] at hiff
    rw [Bool.eq_false_iff]
    intro htrue
    rcases hiff.mp htrue with hc | hc
    · linarith
    · omega
  · rw [update_bar_progress, update_bar_progress]

/-- C2 witness: a completing update (delta 200 at time 10) redraws, and
with a redraw at time 10 under interval 7, a second update at time 13
(2 below total) is blocked while still incrementing progress. -/
theorem update_redraw_gate_witness :
    (update ⟨1, true⟩ cxBar 200 10).drew = true
    ∧ (update (update ⟨1, true⟩ cxBar 1 10).reg (update ⟨1, true⟩ cxBar 1 10).bar 1 13).drew = false
    ∧ (update (update ⟨1, true⟩ cxBar 1 10).reg (update ⟨1, true⟩ cxBar 1 10).bar 1 13).bar.progress
        = cxBar.progress + 1 + 1 :=
  ⟨update_redraw_gate.2.1 ⟨1, true⟩ cxBar 200 10 (by with_unfolding_all decide),
   update_redraw_gate.2.2 ⟨1, true⟩ cxBar 1 1 10 13
    (by with_unfolding_all decide)
    (by with_unfolding_all decide)
    (by with_unfolding_all decide)⟩

theorem update_reg_reserve (reg : Registry) (b : Bar) (d : ℤ) (now : ℚ) :
    (update reg b d now).reg = (if reg.lines_reserved then (reg, "") else reserve_lines reg none).1
    ∧ (update reg b d now).reserveOut
        = (if reg.lines_reserved then (reg, "") else reserve_lines reg none).2 := by
  unfold update
  dsimp only
  constructor <;> (split <;> split <;> split <;> rfl)

/-- C4: registry invariants.  A bar's line offset is the class-level
count at construction (the number of bars constructed before it) and no
operation reassigns it; the count grows by exactly one per construction
and is unchanged by `update`; and the blank-line reservation is emitted
at most once: an `update` in the unreserved state with `k` bars
registered prints exactly `k` newline characters and sets the flag, and
once the flag is set neither `update` nor `reserve_lines` emits
reservation output again. -/
theorem registry_invariant :
    (∀ (reg : Registry) (total : ℤ) (leave : Bool) (pfx sfx : String) (mi : ℚ)
        (fill : String) (cols : ℕ),
        (mkTerminalProgressBar reg total leave pfx sfx mi fill cols).1.bar_line
            = reg.terminal_bar_count
        ∧ (mkTerminalProgressBar reg total leave pfx sfx mi fill cols).2.terminal_bar_count
            = reg.terminal_bar_count + 1
        ∧ (mkTerminalProgressBar reg total leave pfx sfx mi fill cols).2.lines_reserved
            = reg.lines_reserved)
    ∧ (∀ (reg : Registry) (b : Bar) (d : ℤ) (now : ℚ),
        (update reg b d now).bar.bar_line = b.bar_line
        ∧ (update reg b d now).reg.terminal_bar_count = reg.terminal_bar_count)
    ∧ (∀ (count : ℕ) (b : Bar) (now : ℚ), (reset count b now).bar.bar_line = b.bar_line)
    ∧ (∀ (reg : Registry) (b : Bar) (d : ℤ) (now : ℚ),
        reg.lines_reserved = false → 0 < reg.terminal_bar_count →
        (update reg b d now).reserveOut
            = String.mk (List.replicate reg.terminal_bar_count '\n')
        ∧ (update reg b d now).reg.lines_reserved = true)
    ∧ (∀ (reg : Registry) (b : Bar) (d : ℤ) (now : ℚ),
        reg.lines_reserved = true →
        (update reg b d now).reserveOut = "" ∧ (update reg b d now).reg.lines_reserved = true)
    ∧ (∀ (reg : Registry) (n : Option ℕ),
        reg.lines_reserved = true → reserve_lines reg n = (reg, "")) := by
  refine ⟨fun reg total leave pfx sfx mi fill cols => ⟨rfl, rfl, rfl⟩,
    fun reg b d now => ⟨update_bar_bar_line reg b d now, update_reg_count reg b d now⟩,
    fun count b now => rfl,
    fun reg b d now hres hcount => ?_,
    fun reg b d now hres => ?_,
    fun reg n hres => ?_⟩
  · obtain ⟨hr, ho⟩ := update_reg_reserve reg b d now
    rw [hres] at hr ho
    simp only [if_neg (Bool.false_ne_true), reserve_lines, hres] at hr ho
    simp only [Option.getD_none, if_pos hcount] at hr ho
    exact ⟨ho, by rw [hr]⟩
  · obtain ⟨hr, ho⟩ := update_reg_reserve reg b d now
    rw [hres] at hr ho
    simp only [if_pos] at hr ho
    exact ⟨ho, by rw [hr, hres]⟩
  · unfold reserve_lines
    rw [if_pos hres]

/-- C4 witness: a concrete first update in an unreserved two-bar
registry prints exactly two newlines and sets the flag; afterwards the
reservation is never re-emitted. -/
theorem registry_invariant_witness :
    ((update ⟨2, false⟩ wBar 1 1).reserveOut = String.mk (List.replicate 2 '\n')
      ∧ (update ⟨2, false⟩ wBar 1 1).reg.lines_reserved = true)
    ∧ ((update ⟨2, true⟩ wBar 1 1).reserveOut = ""
      ∧ (update ⟨2, true⟩ wBar 1 1).reg.lines_reserved = true)
    ∧ reserve_lines ⟨2, true⟩ none = (⟨2, true⟩, "") :=
  ⟨registry_invariant.2.2.2.1 ⟨2, false⟩ wBar 1 1 rfl (by norm_num),
   registry_invariant.2.2.2.2.1 ⟨2, true⟩ wBar 1 1 rfl,
   registry_invariant.2.2.2.2.2 ⟨2, true⟩ none rfl⟩

/-- A mid-run bar (progress 5, last render at time 0 with snapshot 0),
used by witnesses. -/
def wBar5 : Bar :=
  { total := 100, leave := true, pfx := "", sfx := "", progress := 5,
    last_update_time := 0, minimum_interval := 1/10, last_update_progress := 0,
    rate := 0, start_time := some 0, fill := "#", bar_length := 10, bar_line := 0 }

/-- C5: the rate computed at a redraw is
`(currentProgress - lastRenderProgress) / (now - lastRenderTime)`, and
exactly `0` when the elapsed interval is zero or negative; the rate is
exactly `0` immediately after construction; and the rate stored by a
redrawing `update` call follows the same formula with the incremented
progress. -/
theorem rate_estimation :
    (∀ (b : Bar) (now : ℚ), 0 < now - b.last_update_time →
        (update_rate b now).rate
          = ((b.progress - b.last_update_progress : ℤ) : ℚ) / (now - b.last_update_time))
    ∧ (∀ (b : Bar) (now : ℚ), now - b.last_update_time ≤ 0 → (update_rate b now).rate = 0)
    ∧ (∀ (reg : Registry) (total : ℤ) (leave : Bool) (pfx sfx : String) (mi : ℚ)
        (fill : String) (cols : ℕ),
        (mkTerminalProgressBar reg total leave pfx sfx mi fill cols).1.rate = 0)
    ∧ (∀ (reg : Registry) (b : Bar) (d : ℤ) (now : ℚ), (update reg b d now).drew = true →
        (update reg b d now).bar.rate
          = if 0 < now - b.last_update_time then
              ((b.progress + d - b.last_update_progress : ℤ) : ℚ) / (now - b.last_update_time)
            else 0) := by
  refine ⟨fun b now h => ?_, fun b now h => ?_,
    fun reg total leave pfx sfx mi fill cols => rfl, fun reg b d now h => ?_⟩
  · unfold update_rate
    dsimp only
    rw [if_pos h]
  · unfold update_rate
    dsimp only
    rw [if_neg (not_lt.mpr h)]
  · unfold update at h ⊢
    dsimp only at h ⊢
    split <;> split <;> split <;> first
      | rfl
      | (exfalso; split at h <;> simp_all)

/-- C5 witness: concrete rates for `wBar5` at times 1 (positive elapsed)
and 0 (zero elapsed), and through a redrawing `update` call. -/
theorem rate_estimation_witness :
    (update_rate wBar5 1).rate
        = ((wBar5.progress - wBar5.last_update_progress : ℤ) : ℚ) / (1 - wBar5.last_update_time)
    ∧ (update_rate wBar5 0).rate = 0
    ∧ (update ⟨1, true⟩ wBar5 2 1).bar.rate
        = if 0 < (1 : ℚ) - wBar5.last_update_time then
            ((wBar5.progress + 2 - wBar5.last_update_progress : ℤ) : ℚ)
              / (1 - wBar5.last_update_time)
          else 0 :=
  ⟨rate_estimation.1 wBar5 1 (by with_unfolding_all decide),
   rate_estimation.2.1 wBar5 0 (by with_unfolding_all decide),
   rate_estimation.2.2.2 ⟨1, true⟩ wBar5 2 1 (by with_unfolding_all decide)⟩

/-- C6: the ETA equals `(total - progress) / rate` whenever
`progress > 0` and `rate > 0`, and is exactly `0` whenever
`progress == 0` or `rate <= 0`. -/
theorem remaining_eta (b : Bar) :
    (0 < b.progress → 0 < b.rate →
        remaining b = ((b.total - b.progress : ℤ) : ℚ) / b.rate)
    ∧ (b.progress = 0 ∨ b.rate ≤ 0 → remaining b = 0) := by
  constructor
  · intro hp hr
    unfold remaining
    rw [if_neg, if_pos hr]
    push_neg
    exact ⟨by omega, ne_of_gt hr⟩
  · intro h
    unfold remaining
    rcases h with h | h
    · rw [if_pos (Or.inl h)]
    · by_cases hz : b.progress = 0 ∨ b.rate = 0
      · rw [if_pos hz]
      · rw [if_neg hz, if_neg (not_lt.mpr h)]

/-- C6 witness: a bar at progress 5 with rate 2 has ETA
`(100 - 5) / 2`; the freshly-constructed `wBar` (progress 0) has ETA 0. -/
theorem remaining_eta_witness :
    remaining { wBar5 with rate := 2 }
        = (({ wBar5 with rate := 2 }.total - { wBar5 with rate := 2 }.progress : ℤ) : ℚ)
            / { wBar5 with rate := 2 }.rate
    ∧ remaining wBar = 0 :=
  ⟨(remaining_eta { wBar5 with rate := 2 }).1 (by norm_num [wBar5]) (by norm_num [wBar5]),
   (remaining_eta wBar).2 (Or.inl (by with_unfolding_all decide))⟩

/-- C10: when progress has overshot a positive total and the rate is
strictly positive, `remaining` is strictly negative (no clamping at
zero), and this negative value is exactly what `format_time` receives
for the rendered remaining field of the line. -/
theorem remaining_negative_on_overshoot (b : Bar)
    (h1 : b.total < b.progress) (h2 : 0 < b.rate) (h3 : 0 < b.total) :
    remaining b < 0
    ∧ remainingStr b = format_time (remaining b)
    ∧ ∀ now : ℚ, ∃ s t : String,
        drawContent b now = s ++ (format_time (remaining b) ++ t) := by
  have hp : 0 < b.progress := lt_trans h3 h1
  have hval : remaining b = ((b.total - b.progress : ℤ) : ℚ) / b.rate := by
    unfold remaining
    rw [if_neg, if_pos h2]
    push_neg
    exact ⟨by omega, ne_of_gt h2⟩
  have hstr : remainingStr b = format_time (remaining b) := by
    unfold remainingStr
    rw [if_pos hp]
  refine ⟨?_, hstr, fun now => ?_⟩
  · rw [hval]
    apply div_neg_of_neg_of_pos _ h2
    have : (b.total - b.progress : ℤ) < 0 := by omega
    exact_mod_cast this
  · refine ⟨b.pfx ++ " |" ++ barStr b ++ "| " ++ intRepr b.progress ++ "/" ++ intRepr b.total
      ++ " " ++ format_time (elapsed b now) ++ "<",
      " " ++ rateStr b ++ " " ++ b.sfx, ?_⟩
    unfold drawContent
    rw [hstr]
    simp only [String.append_assoc]

/-- A bar that has overshot its total (progress 15 of 10) with positive
rate. -/
def wOver : Bar :=
  { total := 10, leave := true, pfx := "", sfx := "", progress := 15,
    last_update_time := 1, minimum_interval := 1/10, last_update_progress := 0,
    rate := 2, start_time := some 0, fill := "#", bar_length := 10, bar_line := 0 }

/-- C10 witness: the overshot bar `wOver` has strictly negative ETA and
renders it through `format_time`. -/
theorem remaining_negative_on_overshoot_witness :
    remaining wOver < 0 ∧ remainingStr wOver = format_time (remaining wOver) :=
  ⟨(remaining_negative_on_overshoot wOver (by norm_num [wOver]) (by norm_num [wOver])
      (by norm_num [wOver])).1,
   (remaining_negative_on_overshoot wOver (by norm_num [wOver]) (by norm_num [wOver])
      (by norm_num [wOver])).2.1⟩

/-- Modelled from the spec: the §4.2 output format
`{prefix} |{bar}| {progress}/{total} {elapsed}<{remaining} ({rate} it/s) {suffix}`
taken literally — in particular with a single space between the
remaining field and the rate parenthesis — built from the same
sub-renderings as the code. -/
def specRenderLine (b : Bar) (now : ℚ) : String :=
  b.pfx ++ " |" ++ barStr b ++ "| " ++ intRepr b.progress ++ "/" ++ intRepr b.total
    ++ " " ++ format_time (elapsed b now) ++ "<" ++ remainingStr b
    ++ " (" ++ fmt2 b.rate ++ " it/s) " ++ b.sfx

/-- C7 counterexample: at the concrete bar `wBar` the line the code
renders differs from the spec's format string — the code puts two spaces
before the rate parenthesis (`rate_str` itself starts with a space and
the format string adds another). -/
theorem render_format_counterexample :
    drawContent wBar 1 ≠ specRenderLine wBar 1 := by
  with_unfolding_all decide

theorem pad_frac_length :
    ∀ k, k < 100 → (if k < 10 then "0" ++ natRepr k else natRepr k).length = 2 := by decide

/-- C7 (amended): every rendered line has exactly the format
`{prefix} |{bar}| {progress}/{total} {elapsed}<{remaining}  ({rate} it/s) {suffix}`
— with two spaces before the rate parenthesis — followed by the
clear-to-end-of-line escape sequence; the two times are formatted
`MM:SS` with seconds in `[0, 60)` and minutes unbounded (they may exceed
59), and the rate carries exactly two digits after the decimal point. -/
theorem render_format :
    (∀ (b : Bar) (now : ℚ),
        drawContent b now
          = b.pfx ++ " |" ++ barStr b ++ "| " ++ intRepr b.progress ++ "/" ++ intRepr b.total
            ++ " " ++ format_time (elapsed b now) ++ "<" ++ remainingStr b
            ++ "  (" ++ fmt2 b.rate ++ " it/s) " ++ b.sfx)
    ∧ (∀ (count : ℕ) (b : Bar) (now : ℚ),
        drawOutput count b now
          = SAVE_CURSOR_POSITION ++ move_cursor_up_lines ((count : ℤ) - b.bar_line)
            ++ MOVE_CURSOR_TO_LINE_START ++ drawContent b now
            ++ CLEAR_LINE_FROM_CURSOR_TO_END ++ RESTORE_CURSOR_POSITION)
    ∧ (∀ q : ℚ, ∃ m s : ℤ, format_time q = pad2 m ++ ":" ++ pad2 s ∧ 0 ≤ s ∧ s < 60)
    ∧ format_time 3600 = "60:00"
    ∧ (∀ q : ℚ, ∃ a f : String, fmt2 q = a ++ "." ++ f ∧ f.length = 2) := by
  refine ⟨fun b now => ?_, fun count b now => ?_, fun q => ?_, ?_, fun q => ?_⟩
  · simp only [drawContent, rateStr, String.append_assoc]
    rw [append_fold " " " (" "  (" _ rfl, append_fold " it/s)" " " " it/s) " _ rfl]
  · simp only [drawOutput, String.append_assoc]
  · refine ⟨⌊q / 60⌋, ⌊q⌋ - 60 * ⌊q / 60⌋, rfl, ?_, ?_⟩
    · have h1 : (60 : ℚ) * ⌊q / 60⌋ ≤ q := by
        have h := Int.floor_le (q / 60)
        nlinarith
      have h2 : (60 * ⌊q / 60⌋ : ℤ) ≤ ⌊q⌋ := Int.le_floor.mpr (by push_cast; linarith)
      omega
    · have h1 : q < 60 * (⌊q / 60⌋ + 1) := by
        have h := Int.lt_floor_add_one (q / 60)
        nlinarith
      have h2 : ⌊q⌋ < 60 * ⌊q / 60⌋ + 60 := by
        have := Int.floor_lt.mpr (show q < ((60 * ⌊q / 60⌋ + 60 : ℤ) : ℚ) by push_cast; linarith)
        omega
      omega
  · with_unfolding_all decide
  · exact ⟨(if round (q * 100) < 0 then "-" else "")
        ++ natRepr ((round (q * 100)).natAbs / 100),
      if (round (q * 100)).natAbs % 100 < 10 then
        "0" ++ natRepr ((round (q * 100)).natAbs % 100)
      else natRepr ((round (q * 100)).natAbs % 100),
      rfl, pad_frac_length _ (Nat.mod_lt _ (by norm_num))⟩

/-- C8 counterexample: construction with `total = -5` succeeds — there
is no validation and no `InvalidConfiguration` anywhere in the module —
and the returned bar is fully usable: its first update redraws and
completes. -/
theorem invalid_total_counterexample :
    (mkTerminalProgressBar ⟨0, false⟩ (-5) true "" "" (1/10) "#" 50).1.total = -5
    ∧ (mkTerminalProgressBar ⟨0, false⟩ (-5) true "" "" (1/10) "#" 50).1.progress = 0
    ∧ (update ⟨1, true⟩ (mkTerminalProgressBar ⟨0, false⟩ (-5) true "" "" (1/10) "#" 50).1 1 1).drew
        = true
    ∧ (update ⟨1, true⟩ (mkTerminalProgressBar ⟨0, false⟩ (-5) true "" "" (1/10) "#" 50).1 1 1).finished
        = true := by
  with_unfolding_all decide

/-- C8 (amended): constructing a bar with `total <= 0` does not fail:
no validation is performed at construction and no `InvalidConfiguration`
error exists — the constructor returns an ordinary registered bar
holding the given total.  A bar with `total < 0` is even fully usable:
`update` with any positive delta redraws and completes immediately
(`progress >= total` holds at once).  For `total = 0` the failure is
deferred to the first redraw: the `filled_length` computation of `draw`
divides by zero (Python raises `ZeroDivisionError` at draw time, never
at construction time). -/
theorem construction_no_validation (total : ℤ) (htotal : total ≤ 0)
    (reg : Registry) (leave : Bool) (pfx sfx : String) (mi : ℚ) (fill : String) (cols : ℕ) :
    (mkTerminalProgressBar reg total leave pfx sfx mi fill cols).1.total = total
    ∧ (mkTerminalProgressBar reg total leave pfx sfx mi fill cols).1.progress = 0
    ∧ (mkTerminalProgressBar reg total leave pfx sfx mi fill cols).2.terminal_bar_count
        = reg.terminal_bar_count + 1
    ∧ (total < 0 → ∀ (reg2 : Registry) (d : ℤ) (now : ℚ), 0 < d →
        (update reg2 (mkTerminalProgressBar reg total leave pfx sfx mi fill cols).1 d now).drew
            = true
        ∧ (update reg2 (mkTerminalProgressBar reg total leave pfx sfx mi fill cols).1 d now).finished
            = true)
    ∧ (total = 0 → ∀ (reg2 : Registry) (d : ℤ) (now : ℚ),
        filledLengthOpt
          (update reg2 (mkTerminalProgressBar reg total leave pfx sfx mi fill cols).1 d now).bar
          = none) := by
  refine ⟨rfl, rfl, rfl, fun hneg reg2 d now hd => ?_, fun hzero reg2 d now => ?_⟩
  · have hb : (mkTerminalProgressBar reg total leave pfx sfx mi fill cols).1.total
        ≤ (mkTerminalProgressBar reg total leave pfx sfx mi fill cols).1.progress + d := by
      show total ≤ 0 + d
      omega
    exact ⟨(update_drew_iff _ _ _ _).mpr (Or.inr hb), (update_finished_iff _ _ _ _).mpr hb⟩
  · have ht : (update reg2 (mkTerminalProgressBar reg total leave pfx sfx mi fill cols).1 d now).bar.total
        = 0 := by
      rw [update_bar_total]
      exact hzero
    unfold filledLengthOpt
    rw [if_pos ht]

/-- C8 witness: a bar built with `total = -7` is usable — its first
update (delta 3, time 2) redraws and completes — while on a bar built
with `total = 0` that same first update's `filled_length` computation
divides by zero (the modelled `ZeroDivisionError` of `draw`). -/
theorem construction_no_validation_witness :
    ((update ⟨1, true⟩ (mkTerminalProgressBar ⟨0, false⟩ (-7) true "" "" (1/10) "#" 50).1 3 2).drew
        = true
      ∧ (update ⟨1, true⟩ (mkTerminalProgressBar ⟨0, false⟩ (-7) true "" "" (1/10) "#" 50).1 3 2).finished
        = true)
    ∧ filledLengthOpt
        (update ⟨1, true⟩ (mkTerminalProgressBar ⟨0, false⟩ 0 true "" "" (1/10) "#" 50).1 3 2).bar
        = none :=
  ⟨(construction_no_validation (-7) (by norm_num) ⟨0, false⟩ true "" "" (1/10) "#" 50).2.2.2.1
      (by norm_num) ⟨1, true⟩ 3 2 (by norm_num),
   (construction_no_validation 0 le_rfl ⟨0, false⟩ true "" "" (1/10) "#" 50).2.2.2.2
      rfl ⟨1, true⟩ 3 2⟩

/-- C9: after `reset()` in any state, progress, rate, last render time
and last render progress are zeroed, the written output is exactly one
unconditional redraw (no throttle gate is consulted), and the rendered
line shows `0/total`. -/
theorem reset_state_and_redraw (count : ℕ) (b : Bar) (now : ℚ) :
    (reset count b now).bar.progress = 0
    ∧ (reset count b now).bar.rate = 0
    ∧ (reset count b now).bar.last_update_time = 0
    ∧ (reset count b now).bar.last_update_progress = 0
    ∧ (reset count b now).out = drawOutput count (reset count b now).bar now
    ∧ drawContent (reset count b now).bar now
        = b.pfx ++ " |" ++ strRepeat "-" b.bar_length ++ "| 0/" ++ intRepr b.total
          ++ " " ++ format_time (elapsed (reset count b now).bar now)
          ++ "<00:00  (0.00 it/s) " ++ b.sfx := by
  have hfmt : fmt2 (0 : ℚ) = "0.00" := by with_unfolding_all decide
  have hzero : intRepr (0 : ℤ) = "0" := by decide
  refine ⟨rfl, rfl, rfl, rfl, rfl, ?_⟩
  simp only [reset, drawContent, rateStr, remainingStr, barStr, elapsed]
  simp only [hfmt, hzero, mul_zero, Int.zero_fdiv, Int.toNat_zero, sub_zero,
    Int.toNat_natCast, lt_self_iff_false, if_false, strRepeat]
  rw [show ∀ s : String, "" ++ s = s from fun s => rfl]
  simp only [String.append_assoc]
  rw [append_fold "| " "0" "| 0" _ rfl, append_fold "| 0" "/" "| 0/" _ rfl,
    append_fold "<" "00:00" "<00:00" _ rfl, append_fold "<00:00" " " "<00:00 " _ rfl,
    append_fold "<00:00 " " (" "<00:00  (" _ rfl,
    append_fold "<00:00  (" "0.00" "<00:00  (0.00" _ rfl,
    append_fold "<00:00  (0.00" " it/s)" "<00:00  (0.00 it/s)" _ rfl,
    append_fold "<00:00  (0.00 it/s)" " " "<00:00  (0.00 it/s) " _ rfl]

end AsyncProgressbar
